import Mathlib

/-!
Shallow embedding of the Heptagon-Physics simulation core
(`src/components/HeptagonSimulation.tsx`): 2D vector kernel, ball state,
the wall-collision resolver, the ball-ball resolver, and the per-frame
`updatePhysics` orchestration (rotation advance, vertex generation,
`SUB_STEPS` fixed sub-steps).

Numbers are embedded as exact rationals (`ℚ`).  `Math.sqrt` is embedded as
`Rat.sqrt` (exact on perfect squares, an approximation elsewhere, mirroring
floating-point behaviour); theorems that depend on the square root being
exact carry that as an explicit hypothesis.  The transcendental functions
`Math.sin`, `Math.cos`, `Math.atan2` and the constant `Math.PI` are
parameters of the embedding: every theorem below holds for all choices of
those parameters.
-/

namespace Heptagon

/-- 2D vector, mirroring `interface Vector { x, y }`. -/
@[ext]
structure Vec where
  x : ℚ
  y : ℚ
deriving DecidableEq

/-- Ball state, mirroring `interface Ball`.  `color` is embedded as a
natural number (the rendered hue is cosmetic). -/
@[ext]
structure Ball where
  id : ℕ
  x : ℚ
  y : ℚ
  vx : ℚ
  vy : ℚ
  radius : ℚ
  color : ℕ
  mass : ℚ
deriving DecidableEq

def NUM_BALLS : ℕ := 20

def GRAVITY : ℚ := 15 / 100

def FRICTION : ℚ := 99 / 100

def WALL_BOUNCE : ℚ := 7 / 10

def ROTATION_SPEED : ℚ := 1 / 100

def HEPTAGON_SIDES : ℕ := 7

def SUB_STEPS : ℕ := 8

/-- The local constant `restitution = 0.8` of the ball-ball resolver. -/
def BALL_RESTITUTION : ℚ := 8 / 10

def dot (v1 v2 : Vec) : ℚ := v1.x * v2.x + v1.y * v2.y

def sub (v1 v2 : Vec) : Vec := ⟨v1.x - v2.x, v1.y - v2.y⟩

def add (v1 v2 : Vec) : Vec := ⟨v1.x + v2.x, v1.y + v2.y⟩

def mult (v : Vec) (s : ℚ) : Vec := ⟨v.x * s, v.y * s⟩

/-- `length` from the source: `Math.sqrt(v.x*v.x + v.y*v.y)`. -/
def length (v : Vec) : ℚ := Rat.sqrt (v.x * v.x + v.y * v.y)

/-- `normalize` from the source, with the `len === 0` guard. -/
def normalize (v : Vec) : Vec :=
  let len := length v
  if len = 0 then ⟨0, 0⟩ else ⟨v.x / len, v.y / len⟩

/-- The inward edge normal computed in the wall resolver: perpendicular of
the unit edge direction, flipped towards the polygon center if needed. -/
def wallNormal (p1 p2 c : Vec) : Vec :=
  let wallUnit := normalize (sub p2 p1)
  let mid := mult (add p1 p2) (1 / 2)
  let toCenter := sub c mid
  let normal : Vec := ⟨-wallUnit.y, wallUnit.x⟩
  if dot normal toCenter < 0 then ⟨-normal.x, -normal.y⟩ else normal

/-- Signed distance of the ball center from the edge line:
`dist = dot(toBall, normal)`. -/
def wallDist (p1 p2 c : Vec) (b : Ball) : ℚ :=
  dot (sub ⟨b.x, b.y⟩ p1) (wallNormal p1 p2 c)

/-- Ball center after the wall position correction
(`ball.x += normal.x * overlap`, likewise for `y`). -/
def wallCorrectedPos (p1 p2 c : Vec) (b : Ball) : Vec :=
  ⟨b.x + (wallNormal p1 p2 c).x * (b.radius - wallDist p1 p2 c b),
   b.y + (wallNormal p1 p2 c).y * (b.radius - wallDist p1 p2 c b)⟩

/-- The approximate wall velocity `wallV` at a contact position:
`wallSpeed = |pos - c| * ROTATION_SPEED * 60`, direction from
`atan2`, scaled by `0.2`. -/
def wallVelAt (sinF cosF : ℚ → ℚ) (atan2F : ℚ → ℚ → ℚ) (c pos : Vec) : Vec :=
  let distFromCenter := length (sub pos c)
  let wallSpeed := distFromCenter * ROTATION_SPEED * 60
  ⟨-(sinF (atan2F (pos.y - c.y) (pos.x - c.x))) * wallSpeed * (2 / 10),
   (cosF (atan2F (pos.y - c.y) (pos.x - c.x))) * wallSpeed * (2 / 10)⟩

/-- The normal component of the ball velocity relative to the wall,
evaluated (as in the source) at the position-corrected ball center. -/
def wallVRelN (sinF cosF : ℚ → ℚ) (atan2F : ℚ → ℚ → ℚ) (c p1 p2 : Vec)
    (b : Ball) : ℚ :=
  dot (sub ⟨b.vx, b.vy⟩ (wallVelAt sinF cosF atan2F c (wallCorrectedPos p1 p2 c b)))
    (wallNormal p1 p2 c)

/-- One ball against one polygon edge `p1 → p2` (the body of the edge loop
in `updatePhysics`): contact test `dist < radius`, position correction,
then the relative-velocity restitution impulse when `vRelDotN < 0`. -/
def resolveWallEdge (sinF cosF : ℚ → ℚ) (atan2F : ℚ → ℚ → ℚ) (c p1 p2 : Vec)
    (b : Ball) : Ball :=
  let normal := wallNormal p1 p2 c
  let dist := wallDist p1 p2 c b
  if dist < b.radius then
    let pos1 := wallCorrectedPos p1 p2 c b
    let wallV := wallVelAt sinF cosF atan2F c pos1
    let vRel := sub ⟨b.vx, b.vy⟩ wallV
    let vRelDotN := dot vRel normal
    if vRelDotN < 0 then
      let j := -(1 + WALL_BOUNCE) * vRelDotN
      let impulse := mult normal j
      { b with x := pos1.x, y := pos1.y,
               vx := vRel.x + impulse.x + wallV.x,
               vy := vRel.y + impulse.y + wallV.y }
    else
      { b with x := pos1.x, y := pos1.y }
  else b

/-- Center distance `d = length(distVec)` of the ball-ball resolver. -/
def pairDist (ball other : Ball) : ℚ :=
  length (sub ⟨other.x, other.y⟩ ⟨ball.x, ball.y⟩)

/-- Contact normal `n = normalize(distVec)` of the ball-ball resolver. -/
def pairNormal (ball other : Ball) : Vec :=
  normalize (sub ⟨other.x, other.y⟩ ⟨ball.x, ball.y⟩)

/-- Normal component `vn = dot(vRel, n)` with `vRel = vball - vother`. -/
def pairVn (ball other : Ball) : ℚ :=
  dot (sub ⟨ball.vx, ball.vy⟩ ⟨other.vx, other.vy⟩) (pairNormal ball other)

/-- Half-overlap position correction `correction = mult(n, overlap * 0.5)`. -/
def pairCorrection (ball other : Ball) : Vec :=
  mult (pairNormal ball other) ((ball.radius + other.radius - pairDist ball other) * (5 / 10))

/-- One ball-ball interaction (the body of the inner `j` loop in
`updatePhysics`): contact test `d < minDist`, symmetric half-overlap
position correction, `continue` when `vn > 0`, otherwise the equal-mass
restitution impulse `(-(1 + restitution) * vn) / 2` along the normal. -/
def resolvePair (ball other : Ball) : Ball × Ball :=
  let d := pairDist ball other
  let minDist := ball.radius + other.radius
  if d < minDist then
    let correction := pairCorrection ball other
    let ball1 := { ball with x := ball.x - correction.x, y := ball.y - correction.y }
    let other1 := { other with x := other.x + correction.x, y := other.y + correction.y }
    let vn := pairVn ball other
    if vn > 0 then (ball1, other1)
    else
      let impulse := mult (pairNormal ball other) (-(1 + BALL_RESTITUTION) * vn / 2)
      ({ ball1 with vx := ball1.vx + impulse.x, vy := ball1.vy + impulse.y },
       { other1 with vx := other1.vx - impulse.x, vy := other1.vy - impulse.y })
  else (ball, other)

/-- Gravity, damping and position integration of one sub-step
(`vy += GRAVITY*dt; vx *= FRICTION; vy *= FRICTION; x += vx*dt; y += vy*dt`). -/
def integrate (b : Ball) : Ball :=
  let dtq : ℚ := 1 / (SUB_STEPS : ℚ)
  let vx1 := b.vx * FRICTION
  let vy1 := (b.vy + GRAVITY * dtq) * FRICTION
  { b with vx := vx1, vy := vy1, x := b.x + vx1 * dtq, y := b.y + vy1 * dtq }

/-- Default element used for (always in-range) list indexing. -/
def defaultBall : Ball := ⟨0, 0, 0, 0, 0, 0, 0, 0⟩

/-- The `HEPTAGON_SIDES` edges `(vertices[i], vertices[(i+1) % 7])`. -/
def edgePairs (verts : List Vec) : List (Vec × Vec) :=
  (List.range HEPTAGON_SIDES).map fun i =>
    (verts.getD i ⟨0, 0⟩, verts.getD ((i + 1) % HEPTAGON_SIDES) ⟨0, 0⟩)

/-- The wall-collision loop: one ball against every edge, sequentially. -/
def resolveWalls (sinF cosF : ℚ → ℚ) (atan2F : ℚ → ℚ → ℚ) (c : Vec)
    (verts : List Vec) (b : Ball) : Ball :=
  (edgePairs verts).foldl (fun bb e => resolveWallEdge sinF cosF atan2F c e.1 e.2 bb) b

/-- One iteration of the inner ball-ball loop for the ball at index `i`
against the ball at index `j`, skipping the self-pair by `id` equality and
writing both updated balls back (the source mutates the shared objects). -/
def pairLoopStep (bs : List Ball) (i j : ℕ) : List Ball :=
  let ball := bs.getD i defaultBall
  let other := bs.getD j defaultBall
  if ball.id = other.id then bs
  else
    let p := resolvePair ball other
    (bs.set i p.1).set j p.2

/-- Everything `updatePhysics` does to the ball at index `i` in one
sub-step: integration, the wall loop, then the ball-ball loop over all
indices `j`. -/
def processBall (sinF cosF : ℚ → ℚ) (atan2F : ℚ → ℚ → ℚ) (c : Vec)
    (verts : List Vec) (bs : List Ball) (i : ℕ) : List Ball :=
  let b1 := resolveWalls sinF cosF atan2F c verts (integrate (bs.getD i defaultBall))
  let bs1 := bs.set i b1
  (List.range bs.length).foldl (fun acc j => pairLoopStep acc i j) bs1

/-- One physics sub-step: `balls.forEach(...)` in index order. -/
def subStep (sinF cosF : ℚ → ℚ) (atan2F : ℚ → ℚ → ℚ) (c : Vec)
    (verts : List Vec) (bs : List Ball) : List Ball :=
  (List.range bs.length).foldl (fun acc i => processBall sinF cosF atan2F c verts acc i) bs

/-- Simulation state mutated by `updatePhysics`: the rotation angle and
the ball array. -/
structure SimState where
  rotationAngle : ℚ
  balls : List Ball
deriving DecidableEq

/-- Heptagon vertex `i` for a given rotation angle:
`theta = angle + (i * 2 * π) / HEPTAGON_SIDES`,
`(cx + R cos theta, cy + R sin theta)`. -/
def vertexAt (piQ : ℚ) (cosF sinF : ℚ → ℚ) (c : Vec) (hepR : ℚ) (angle : ℚ)
    (i : ℕ) : Vec :=
  let theta := angle + ((i : ℚ) * 2 * piQ) / (HEPTAGON_SIDES : ℚ)
  ⟨c.x + hepR * cosF theta, c.y + hepR * sinF theta⟩

/-- One frame of `updatePhysics`: advance `rotationAngle` once, recompute
the vertices once from the updated angle, then run `SUB_STEPS` sub-steps
over the same vertex list. -/
def updatePhysics (piQ : ℚ) (sinF cosF : ℚ → ℚ) (atan2F : ℚ → ℚ → ℚ)
    (c : Vec) (hepR : ℚ) (s : SimState) : SimState :=
  let angle := s.rotationAngle + ROTATION_SPEED
  let verts := (List.range HEPTAGON_SIDES).map (vertexAt piQ cosF sinF c hepR angle)
  { rotationAngle := angle,
    balls := (List.range SUB_STEPS).foldl
      (fun bs _ => subStep sinF cosF atan2F c verts bs) s.balls }

/-- Erase the two fields the physics step never reads (`color`, `mass`). -/
def eraseCM (b : Ball) : Ball := { b with color := 0, mass := 0 }

/-- Agreement on every field the physics step reads: `id`, position,
velocity and `radius` — everything except `color` and `mass`. -/
def agr (b c : Ball) : Prop :=
  b.id = c.id ∧ b.x = c.x ∧ b.y = c.y ∧ b.vx = c.vx ∧ b.vy = c.vy ∧ b.radius = c.radius

instance (b c : Ball) : Decidable (agr b c) := by unfold agr; infer_instance

/-- Concrete inputs of the spec's two-ball scenario. -/
def c1ballA : Ball := { id := 1, x := 0, y := 0, vx := 5, vy := 0, radius := 10, color := 0, mass := 1 }

def c1ballB : Ball := { id := 2, x := 15, y := 0, vx := -5, vy := 0, radius := 10, color := 1, mass := 1 }

/-- An overlapping but separating pair: the balls are moving apart. -/
def c2pairA : Ball := { id := 1, x := 0, y := 0, vx := -5, vy := 0, radius := 10, color := 0, mass := 1 }

def c2pairB : Ball := { id := 2, x := 15, y := 0, vx := 5, vy := 0, radius := 10, color := 1, mass := 1 }

def c3ballA : Ball := { id := 1, x := 0, y := 0, vx := -5, vy := 0, radius := 10, color := 0, mass := 1 }

def c3ballB : Ball := { id := 2, x := 15, y := 0, vx := 5, vy := 0, radius := 10, color := 1, mass := 1 }

def c4wallBall : Ball := { id := 1, x := 1/2, y := 0, vx := 1, vy := 0, radius := 1, color := 0, mass := 1 }

def c4pairA : Ball := { id := 3, x := 0, y := 0, vx := -5, vy := 0, radius := 10, color := 0, mass := 1 }

def c4pairB : Ball := { id := 4, x := 15, y := 0, vx := 5, vy := 0, radius := 10, color := 1, mass := 1 }

def c5wallBall : Ball := { id := 1, x := 1/2, y := 0, vx := 0, vy := 0, radius := 1, color := 0, mass := 1 }

def c5pairA : Ball := { id := 1, x := 0, y := 0, vx := 0, vy := 0, radius := 10, color := 0, mass := 1 }

def c5pairB : Ball := { id := 2, x := 15, y := 0, vx := 0, vy := 0, radius := 10, color := 1, mass := 1 }

/-- Two balls with exactly coincident centers (degenerate contact). -/
def c5coinA : Ball := { id := 1, x := 3, y := 4, vx := 1, vy := 0, radius := 10, color := 0, mass := 1 }

def c5coinB : Ball := { id := 2, x := 3, y := 4, vx := 0, vy := 2, radius := 10, color := 1, mass := 1 }

def c7ball : Ball := { id := 1, x := 0, y := 0, vx := 0, vy := 0, radius := 1, color := 0, mass := 1 }

def c9ballS : Ball := { id := 1, x := 0, y := 0, vx := 0, vy := 0, radius := 1, color := 3, mass := 1 }

def c9ballT : Ball := { id := 1, x := 0, y := 0, vx := 0, vy := 0, radius := 1, color := 8, mass := 5 }

def c10ballA : Ball := { id := 1, x := 2, y := 3, vx := 4, vy := -1, radius := 5, color := 0, mass := 1 }

def c10ballB : Ball := { id := 2, x := 2, y := 3, vx := -2, vy := 6, radius := 7, color := 9, mass := 1 }

/-! ## Helper lemmas -/

/-- `Rat.sqrt` (the embedding of `Math.sqrt`) is exact on perfect squares. -/
theorem length_eval (x y d : ℚ) (h : x * x + y * y = d * d) (hd : 0 ≤ d) :
    length ⟨x, y⟩ = d := by
  unfold length
  rw [h, Rat.sqrt_eq, abs_of_nonneg hd]

theorem length_zero_vec : length ⟨0, 0⟩ = 0 := length_eval 0 0 0 (by norm_num) le_rfl

theorem ratSqrt_ne_zero (q : ℚ) (hq : 0 < q) : Rat.sqrt q ≠ 0 := by
  have hnum : 0 < q.num := Rat.num_pos.mpr hq
  have h1 : 0 < q.num.toNat := by omega
  have h2 : Nat.sqrt q.num.toNat ≠ 0 := (Nat.sqrt_pos.mpr h1).ne'
  have h3 : Nat.sqrt q.den ≠ 0 := (Nat.sqrt_pos.mpr q.den_pos).ne'
  unfold Rat.sqrt
  rw [Rat.mkRat_ne_zero h3]
  unfold Int.sqrt
  exact_mod_cast h2

theorem length_ne_zero (v : Vec) (hv : v ≠ (⟨0, 0⟩ : Vec)) : length v ≠ 0 := by
  have hxy : v.x ≠ 0 ∨ v.y ≠ 0 := by
    by_contra hc
    push_neg at hc
    exact hv (Vec.ext hc.1 hc.2)
  have hq : 0 < v.x * v.x + v.y * v.y := by
    rcases hxy with h | h
    · exact add_pos_of_pos_of_nonneg (mul_self_pos.mpr h) (mul_self_nonneg _)
    · exact add_pos_of_nonneg_of_pos (mul_self_nonneg _) (mul_self_pos.mpr h)
  exact ratSqrt_ne_zero _ hq

/-- The wall velocity field vanishes at the container center. -/
theorem wallVelAt_center (sinF cosF : ℚ → ℚ) (atan2F : ℚ → ℚ → ℚ) (c : Vec) :
    wallVelAt sinF cosF atan2F c c = ⟨0, 0⟩ := by
  unfold wallVelAt
  rw [show sub c c = (⟨0, 0⟩ : Vec) by simp [sub]]
  rw [length_zero_vec]
  simp

/-- The inward normal of the vertical example edge from `(1,-1)` to `(1,1)`
seen from the center `(0,0)`. -/
theorem wallNormal_example : wallNormal ⟨1, -1⟩ ⟨1, 1⟩ ⟨0, 0⟩ = ⟨-1, 0⟩ := by
  unfold wallNormal
  rw [show sub ⟨1, 1⟩ ⟨1, -1⟩ = (⟨0, 2⟩ : Vec) by simp [sub]; norm_num]
  rw [show normalize ⟨0, 2⟩ = ⟨0, 1⟩ by
    simp [normalize, length_eval 0 2 2 (by norm_num) (by norm_num)]]
  norm_num [dot, sub, add, mult]

/-- Center distance for the standard example pair: ball at the origin,
other at `(15, 0)`. -/
theorem pairDist_example (ball other : Ball) (hbx : ball.x = 0) (hby : ball.y = 0)
    (hox : other.x = 15) (hoy : other.y = 0) : pairDist ball other = 15 := by
  unfold pairDist
  rw [show sub ⟨other.x, other.y⟩ ⟨ball.x, ball.y⟩ = (⟨15, 0⟩ : Vec) by
    simp [sub, hbx, hby, hox, hoy]]
  exact length_eval 15 0 15 (by norm_num) (by norm_num)

/-- Contact normal for the standard example pair. -/
theorem pairNormal_example (ball other : Ball) (hbx : ball.x = 0) (hby : ball.y = 0)
    (hox : other.x = 15) (hoy : other.y = 0) : pairNormal ball other = ⟨1, 0⟩ := by
  unfold pairNormal
  rw [show sub ⟨other.x, other.y⟩ ⟨ball.x, ball.y⟩ = (⟨15, 0⟩ : Vec) by
    simp [sub, hbx, hby, hox, hoy]]
  simp [normalize, length_eval 15 0 15 (by norm_num) (by norm_num)]

/-! ## Claims -/

/-- C8: `normalize` maps the zero vector to the zero vector (the division
is guarded by the `len === 0` test, hence total), and maps every non-zero
vector `v` to `v` divided by its (non-zero) length. -/
theorem c8_normalize_guarded_total :
    normalize ⟨0, 0⟩ = (⟨0, 0⟩ : Vec) ∧
    ∀ v : Vec, v ≠ (⟨0, 0⟩ : Vec) →
      length v ≠ 0 ∧ normalize v = ⟨v.x / length v, v.y / length v⟩ := by
  constructor
  · simp [normalize, length_zero_vec]
  · intro v hv
    have hne : length v ≠ 0 := length_ne_zero v hv
    exact ⟨hne, by simp [normalize, hne]⟩

theorem c8_witness :
    length ⟨3, 4⟩ ≠ 0 ∧ normalize ⟨3, 4⟩ = ⟨3 / length ⟨3, 4⟩, 4 / length ⟨3, 4⟩⟩ :=
  c8_normalize_guarded_total.2 ⟨3, 4⟩ (by simp)

/-- C7: a ball whose signed distance from the edge line is exactly its
radius is not a contact (`dist < radius` is strict), so the wall resolver
changes neither its position nor its velocity. -/
theorem c7_exact_tangency_is_inert (sinF cosF : ℚ → ℚ) (atan2F : ℚ → ℚ → ℚ)
    (c p1 p2 : Vec) (b : Ball) (h : wallDist p1 p2 c b = b.radius) :
    resolveWallEdge sinF cosF atan2F c p1 p2 b = b := by
  unfold resolveWallEdge
  rw [h]
  simp

theorem c7_witness :
    resolveWallEdge (fun _ => 0) (fun _ => 0) (fun _ _ => 0) ⟨0, 0⟩ ⟨1, -1⟩ ⟨1, 1⟩ c7ball
      = c7ball := by
  apply c7_exact_tangency_is_inert
  unfold wallDist
  rw [wallNormal_example]
  norm_num [dot, sub, c7ball]

/-- Shared helper: the ball-ball resolver is a no-op on a pair with
exactly coincident centers, although the contact condition fires. -/
theorem resolvePair_coincident (ball other : Ball)
    (hx : ball.x = other.x) (hy : ball.y = other.y)
    (hr : 0 < ball.radius + other.radius) :
    pairDist ball other < ball.radius + other.radius ∧
    resolvePair ball other = (ball, other) := by
  have hsub : sub ⟨other.x, other.y⟩ ⟨ball.x, ball.y⟩ = (⟨0, 0⟩ : Vec) := by
    simp [sub, hx, hy]
  have hd : pairDist ball other = 0 := by
    unfold pairDist
    rw [hsub, length_zero_vec]
  have hn : pairNormal ball other = (⟨0, 0⟩ : Vec) := by
    unfold pairNormal
    rw [hsub]
    simp [normalize, length_zero_vec]
  have hvn : pairVn ball other = 0 := by
    unfold pairVn
    rw [hn]
    simp [dot]
  have hcorr : pairCorrection ball other = (⟨0, 0⟩ : Vec) := by
    unfold pairCorrection
    rw [hn]
    simp [mult]
  refine ⟨hd ▸ hr, ?_⟩
  unfold resolvePair
  rw [hd, hvn, hcorr, if_pos hr]
  rw [if_neg (by norm_num)]
  rw [hn]
  simp [mult, Prod.ext_iff, Ball.ext_iff]

/-- C10: exactly coincident centers are detected as a contact
(`0 < r1 + r2`), but the zero-vector `normalize` fallback makes the whole
resolution a no-op: positions and velocities of both balls are unchanged,
so the overlap is not reduced in that sub-step. -/
theorem c10_coincident_centers_noop (ball other : Ball)
    (hx : ball.x = other.x) (hy : ball.y = other.y)
    (hr : 0 < ball.radius + other.radius) :
    pairDist ball other < ball.radius + other.radius ∧
    resolvePair ball other = (ball, other) :=
  resolvePair_coincident ball other hx hy hr

theorem c10_witness :
    pairDist c10ballA c10ballB < c10ballA.radius + c10ballB.radius ∧
    resolvePair c10ballA c10ballB = (c10ballA, c10ballB) :=
  c10_coincident_centers_noop c10ballA c10ballB rfl rfl (by norm_num [c10ballA, c10ballB])

/-- C2 (code behaviour at a separating body-body contact): for the two
radius-10 balls at `(0,0)` and `(15,0)` moving apart with velocities
`(-5,0)` and `(5,0)` — a separating contact, since the relative velocity
of `other` with respect to `ball` along the contact normal is `+10` — the
resolver does NOT leave the velocities unchanged: it computes
`vn = dot(vball - vother, n) = -10`, fails the `vn > 0` "moving away"
skip, and applies impulse scalar `9`, turning the velocities into
`(4,0)` and `(-4,0)`.  Separating body-body contacts are therefore not
inert, contrary to the claim, the spec's own "(separating), skip velocity
change" gloss, and the code's comment on that branch. -/
theorem c2_code_behaviour :
    dot (sub ⟨c2pairB.vx, c2pairB.vy⟩ ⟨c2pairA.vx, c2pairA.vy⟩) (pairNormal c2pairA c2pairB)
        = 10 ∧
    pairDist c2pairA c2pairB < c2pairA.radius + c2pairB.radius ∧
    pairVn c2pairA c2pairB = -10 ∧
    (resolvePair c2pairA c2pairB).1.vx = 4 ∧
    (resolvePair c2pairA c2pairB).1.vy = 0 ∧
    (resolvePair c2pairA c2pairB).2.vx = -4 ∧
    (resolvePair c2pairA c2pairB).2.vy = 0 := by
  have hpd : pairDist c2pairA c2pairB = 15 := pairDist_example _ _ rfl rfl rfl rfl
  have hpn : pairNormal c2pairA c2pairB = ⟨1, 0⟩ := pairNormal_example _ _ rfl rfl rfl rfl
  have hvn : pairVn c2pairA c2pairB = -10 := by
    unfold pairVn
    rw [hpn]
    norm_num [dot, sub, c2pairA, c2pairB]
  have hcorr : pairCorrection c2pairA c2pairB = ⟨5 / 2, 0⟩ := by
    unfold pairCorrection
    rw [hpd, hpn]
    norm_num [mult, c2pairA, c2pairB]
  have hres : resolvePair c2pairA c2pairB =
      ({ c2pairA with x := -(5 / 2), vx := 4 }, { c2pairB with x := 35 / 2, vx := -4 }) := by
    unfold resolvePair
    rw [hpd, hvn, hcorr, if_pos (by norm_num [c2pairA, c2pairB]), if_neg (by norm_num)]
    rw [hpn]
    rw [Prod.ext_iff]
    constructor <;> ext <;>
      simp [mult, c2pairA, c2pairB, BALL_RESTITUTION] <;> norm_num
  refine ⟨by rw [hpn]; norm_num [dot, sub, c2pairA, c2pairB],
    by rw [hpd]; norm_num [c2pairA, c2pairB], hvn, ?_, ?_, ?_, ?_⟩ <;>
    rw [hres] <;> norm_num [c2pairA, c2pairB]

/-- C3: whenever the equal-mass ball-ball impulse branch fires (the
normal component of the resolver's relative velocity is not positive, so
the `continue` is not taken), the vector sum of the two velocities is
unchanged: the impulse is added to one ball and subtracted from the other. -/
theorem c3_pair_impulse_conserves_momentum (ball other : Ball)
    (hm : ball.mass = other.mass)
    (h1 : pairDist ball other < ball.radius + other.radius)
    (h2 : pairVn ball other ≤ 0) :
    (resolvePair ball other).1.vx + (resolvePair ball other).2.vx = ball.vx + other.vx ∧
    (resolvePair ball other).1.vy + (resolvePair ball other).2.vy = ball.vy + other.vy := by
  unfold resolvePair
  rw [if_pos h1, if_neg (not_lt.mpr h2)]
  simp

theorem c3_witness :
    (resolvePair c3ballA c3ballB).1.vx + (resolvePair c3ballA c3ballB).2.vx
        = c3ballA.vx + c3ballB.vx ∧
    (resolvePair c3ballA c3ballB).1.vy + (resolvePair c3ballA c3ballB).2.vy
        = c3ballA.vy + c3ballB.vy := by
  have hpd : pairDist c3ballA c3ballB = 15 := pairDist_example _ _ rfl rfl rfl rfl
  have hpn : pairNormal c3ballA c3ballB = ⟨1, 0⟩ := pairNormal_example _ _ rfl rfl rfl rfl
  have hvn : pairVn c3ballA c3ballB = -10 := by
    unfold pairVn
    rw [hpn]
    norm_num [dot, sub, c3ballA, c3ballB]
  exact c3_pair_impulse_conserves_momentum c3ballA c3ballB rfl
    (by rw [hpd]; norm_num [c3ballA, c3ballB]) (by rw [hvn]; norm_num)

/-- C1 (code behaviour at the spec's scenario): for the two radius-10
balls at `(0,0)` and `(15,0)` with velocities `(5,0)` and `(-5,0)`, one
pass of the ball-ball resolver separates the centers to distance 20, but
leaves both velocities unchanged: the resolver computes
`vn = dot(vball - vother, n) = +10` with `n` pointing from `ball` to
`other`, so the `vn > 0` branch (commented "moving away") skips the
impulse even though the balls are approaching. -/
theorem c1_code_behaviour :
    (resolvePair c1ballA c1ballB).1.x = -(5 / 2) ∧
    (resolvePair c1ballA c1ballB).1.y = 0 ∧
    (resolvePair c1ballA c1ballB).2.x = 35 / 2 ∧
    (resolvePair c1ballA c1ballB).2.y = 0 ∧
    pairDist (resolvePair c1ballA c1ballB).1 (resolvePair c1ballA c1ballB).2 = 20 ∧
    pairVn c1ballA c1ballB = 10 ∧
    (resolvePair c1ballA c1ballB).1.vx = 5 ∧
    (resolvePair c1ballA c1ballB).1.vy = 0 ∧
    (resolvePair c1ballA c1ballB).2.vx = -5 ∧
    (resolvePair c1ballA c1ballB).2.vy = 0 := by
  have hpd : pairDist c1ballA c1ballB = 15 := pairDist_example _ _ rfl rfl rfl rfl
  have hpn : pairNormal c1ballA c1ballB = ⟨1, 0⟩ := pairNormal_example _ _ rfl rfl rfl rfl
  have hvn : pairVn c1ballA c1ballB = 10 := by
    unfold pairVn
    rw [hpn]
    norm_num [dot, sub, c1ballA, c1ballB]
  have hcorr : pairCorrection c1ballA c1ballB = ⟨5 / 2, 0⟩ := by
    unfold pairCorrection
    rw [hpd, hpn]
    norm_num [mult, c1ballA, c1ballB]
  have hres : resolvePair c1ballA c1ballB =
      ({ c1ballA with x := -(5 / 2) }, { c1ballB with x := 35 / 2 }) := by
    unfold resolvePair
    rw [hpd, hvn, hcorr, if_pos (by norm_num [c1ballA, c1ballB]), if_pos (by norm_num)]
    rw [Prod.ext_iff]
    constructor <;> ext <;> simp [c1ballA, c1ballB] <;> norm_num
  rw [hres, hvn]
  refine ⟨by norm_num [c1ballA], by norm_num [c1ballA], by norm_num [c1ballB],
    by norm_num [c1ballB], ?_, by norm_num, by norm_num [c1ballA], by norm_num [c1ballA],
    by norm_num [c1ballB], by norm_num [c1ballB]⟩
  unfold pairDist
  rw [show sub ⟨({ c1ballB with x := 35 / 2 } : Ball).x, ({ c1ballB with x := 35 / 2 } : Ball).y⟩
        ⟨({ c1ballA with x := -(5 / 2) } : Ball).x, ({ c1ballA with x := -(5 / 2) } : Ball).y⟩
      = (⟨20, 0⟩ : Vec) by simp [sub, c1ballA, c1ballB]; norm_num]
  exact length_eval 20 0 20 (by norm_num) (by norm_num)

/-- C4: whenever a velocity impulse is applied (wall or ball-ball), the
post-collision relative speed along the contact normal is bounded by the
pre-collision relative speed along the normal scaled by the applicable
restitution coefficient (`0.7` for walls, `0.8` for balls).  The unit
normal hypothesis holds whenever the square root in `normalize` is exact
(the normal of a degenerate coincident-center pair is the zero vector,
covered by the second disjunct). -/
theorem c4_restitution_bounds_normal_speed :
    (∀ (sinF cosF : ℚ → ℚ) (atan2F : ℚ → ℚ → ℚ) (c p1 p2 : Vec) (b : Ball),
        dot (wallNormal p1 p2 c) (wallNormal p1 p2 c) = 1 →
        wallDist p1 p2 c b < b.radius →
        wallVRelN sinF cosF atan2F c p1 p2 b < 0 →
        |dot (sub ⟨(resolveWallEdge sinF cosF atan2F c p1 p2 b).vx,
                   (resolveWallEdge sinF cosF atan2F c p1 p2 b).vy⟩
                (wallVelAt sinF cosF atan2F c (wallCorrectedPos p1 p2 c b)))
              (wallNormal p1 p2 c)|
          ≤ WALL_BOUNCE * |wallVRelN sinF cosF atan2F c p1 p2 b|) ∧
    (∀ ball other : Ball,
        (dot (pairNormal ball other) (pairNormal ball other) = 1 ∨
          pairNormal ball other = (⟨0, 0⟩ : Vec)) →
        pairDist ball other < ball.radius + other.radius →
        pairVn ball other ≤ 0 →
        |dot (sub ⟨(resolvePair ball other).1.vx, (resolvePair ball other).1.vy⟩
                ⟨(resolvePair ball other).2.vx, (resolvePair ball other).2.vy⟩)
              (pairNormal ball other)|
          ≤ BALL_RESTITUTION * |pairVn ball other|) := by
  constructor
  · intro sinF cosF atan2F c p1 p2 b hn h1 h2
    have hn' : (wallNormal p1 p2 c).x * (wallNormal p1 p2 c).x +
        (wallNormal p1 p2 c).y * (wallNormal p1 p2 c).y = 1 := hn
    have hV : wallVRelN sinF cosF atan2F c p1 p2 b =
        (b.vx - (wallVelAt sinF cosF atan2F c (wallCorrectedPos p1 p2 c b)).x) *
          (wallNormal p1 p2 c).x +
        (b.vy - (wallVelAt sinF cosF atan2F c (wallCorrectedPos p1 p2 c b)).y) *
          (wallNormal p1 p2 c).y := rfl
    have h2' : wallVRelN sinF cosF atan2F c p1 p2 b < 0 := h2
    unfold wallVRelN at h2'
    have key : dot (sub ⟨(resolveWallEdge sinF cosF atan2F c p1 p2 b).vx,
                   (resolveWallEdge sinF cosF atan2F c p1 p2 b).vy⟩
                (wallVelAt sinF cosF atan2F c (wallCorrectedPos p1 p2 c b)))
              (wallNormal p1 p2 c)
        = -WALL_BOUNCE * wallVRelN sinF cosF atan2F c p1 p2 b := by
      unfold resolveWallEdge
      rw [if_pos h1, if_pos h2']
      simp only [dot, sub, mult]
      linear_combination
        (-(1 + WALL_BOUNCE) *
          ((b.vx - (wallVelAt sinF cosF atan2F c (wallCorrectedPos p1 p2 c b)).x) *
              (wallNormal p1 p2 c).x +
           (b.vy - (wallVelAt sinF cosF atan2F c (wallCorrectedPos p1 p2 c b)).y) *
              (wallNormal p1 p2 c).y)) * hn' +
        WALL_BOUNCE * hV
    rw [key, neg_mul, abs_neg, abs_mul,
      abs_of_nonneg (by norm_num [WALL_BOUNCE] : (0 : ℚ) ≤ WALL_BOUNCE)]
  · intro ball other hn h1 h2
    rcases hn with hn | hn
    · have hn' : (pairNormal ball other).x * (pairNormal ball other).x +
          (pairNormal ball other).y * (pairNormal ball other).y = 1 := hn
      have hV : pairVn ball other =
          (ball.vx - other.vx) * (pairNormal ball other).x +
          (ball.vy - other.vy) * (pairNormal ball other).y := rfl
      have key : dot (sub ⟨(resolvePair ball other).1.vx, (resolvePair ball other).1.vy⟩
                  ⟨(resolvePair ball other).2.vx, (resolvePair ball other).2.vy⟩)
                (pairNormal ball other)
          = -BALL_RESTITUTION * pairVn ball other := by
        unfold resolvePair
        rw [if_pos h1, if_neg (not_lt.mpr h2)]
        simp only [dot, sub, mult]
        linear_combination (-(1 + BALL_RESTITUTION) * pairVn ball other) * hn' +
          (-1 : ℚ) * hV
      rw [key, neg_mul, abs_neg, abs_mul,
        abs_of_nonneg (by norm_num [BALL_RESTITUTION] : (0 : ℚ) ≤ BALL_RESTITUTION)]
    · have hvn0 : pairVn ball other = 0 := by
        unfold pairVn
        rw [hn]
        simp [dot]
      have hz : dot (sub ⟨(resolvePair ball other).1.vx, (resolvePair ball other).1.vy⟩
                  ⟨(resolvePair ball other).2.vx, (resolvePair ball other).2.vy⟩)
                (pairNormal ball other) = 0 := by
        rw [hn]
        simp [dot]
      rw [hz, hvn0]
      simp

theorem c4_witness :
    (|dot (sub ⟨(resolveWallEdge (fun _ => 0) (fun _ => 0) (fun _ _ => 0)
                    ⟨0, 0⟩ ⟨1, -1⟩ ⟨1, 1⟩ c4wallBall).vx,
                 (resolveWallEdge (fun _ => 0) (fun _ => 0) (fun _ _ => 0)
                    ⟨0, 0⟩ ⟨1, -1⟩ ⟨1, 1⟩ c4wallBall).vy⟩
              (wallVelAt (fun _ => 0) (fun _ => 0) (fun _ _ => 0) ⟨0, 0⟩
                (wallCorrectedPos ⟨1, -1⟩ ⟨1, 1⟩ ⟨0, 0⟩ c4wallBall)))
            (wallNormal ⟨1, -1⟩ ⟨1, 1⟩ ⟨0, 0⟩)|
        ≤ WALL_BOUNCE * |wallVRelN (fun _ => 0) (fun _ => 0) (fun _ _ => 0)
            ⟨0, 0⟩ ⟨1, -1⟩ ⟨1, 1⟩ c4wallBall|) ∧
    (|dot (sub ⟨(resolvePair c4pairA c4pairB).1.vx, (resolvePair c4pairA c4pairB).1.vy⟩
              ⟨(resolvePair c4pairA c4pairB).2.vx, (resolvePair c4pairA c4pairB).2.vy⟩)
            (pairNormal c4pairA c4pairB)|
        ≤ BALL_RESTITUTION * |pairVn c4pairA c4pairB|) := by
  have hdist : wallDist ⟨1, -1⟩ ⟨1, 1⟩ ⟨0, 0⟩ c4wallBall = 1 / 2 := by
    unfold wallDist
    rw [wallNormal_example]
    norm_num [dot, sub, c4wallBall]
  have hpos : wallCorrectedPos ⟨1, -1⟩ ⟨1, 1⟩ ⟨0, 0⟩ c4wallBall = ⟨0, 0⟩ := by
    unfold wallCorrectedPos
    rw [hdist, wallNormal_example]
    norm_num [c4wallBall]
  have hvrn : wallVRelN (fun _ => 0) (fun _ => 0) (fun _ _ => 0)
      ⟨0, 0⟩ ⟨1, -1⟩ ⟨1, 1⟩ c4wallBall = -1 := by
    unfold wallVRelN
    rw [hpos, wallVelAt_center, wallNormal_example]
    norm_num [dot, sub, c4wallBall]
  have hpn : pairNormal c4pairA c4pairB = ⟨1, 0⟩ := pairNormal_example _ _ rfl rfl rfl rfl
  have hvn : pairVn c4pairA c4pairB = -10 := by
    unfold pairVn
    rw [hpn]
    norm_num [dot, sub, c4pairA, c4pairB]
  exact ⟨c4_restitution_bounds_normal_speed.1 _ _ _ _ _ _ _
      (by rw [wallNormal_example]; norm_num [dot])
      (by rw [hdist]; norm_num [c4wallBall])
      (by rw [hvrn]; norm_num),
    c4_restitution_bounds_normal_speed.2 _ _
      (Or.inl (by rw [hpn]; norm_num [dot]))
      (by rw [pairDist_example c4pairA c4pairB rfl rfl rfl rfl]; norm_num [c4pairA, c4pairB])
      (by rw [hvn]; norm_num)⟩

/-- C5 counterexample: for two radius-10 balls with exactly coincident
centers the contact fires, the position-correction code runs, and yet the
recomputed center distance is `0`, far below `r1 + r2` minus any small
epsilon (here `20 - 1`): the claim fails as stated for this contact. -/
theorem c5_counterexample :
    pairDist c5coinA c5coinB < c5coinA.radius + c5coinB.radius ∧
    pairDist (resolvePair c5coinA c5coinB).1 (resolvePair c5coinA c5coinB).2
      < c5coinA.radius + c5coinB.radius - 1 := by
  obtain ⟨hc, hres⟩ := resolvePair_coincident c5coinA c5coinB rfl rfl
    (by norm_num [c5coinA, c5coinB])
  have hzero : pairDist c5coinA c5coinB = 0 := by
    unfold pairDist
    rw [show sub ⟨c5coinB.x, c5coinB.y⟩ ⟨c5coinA.x, c5coinA.y⟩ = (⟨0, 0⟩ : Vec) by
      simp [sub, c5coinA, c5coinB]]
    exact length_zero_vec
  refine ⟨hc, ?_⟩
  rw [hres, hzero]
  norm_num [c5coinA, c5coinB]

/-- C5 (amended): after a position correction the corrected quantity meets
its minimum, provided the contact is non-degenerate: for a wall contact
with unit inward normal the recomputed signed distance equals the radius;
for a ball pair whose center distance is non-zero and exactly computed,
the recomputed center distance equals `r1 + r2` (an exactly coincident
pair is excluded: there the correction is a no-op, see the
counterexample). -/
theorem c5_nonpenetration_after_correction :
    (∀ (sinF cosF : ℚ → ℚ) (atan2F : ℚ → ℚ → ℚ) (c p1 p2 : Vec) (b : Ball),
        dot (wallNormal p1 p2 c) (wallNormal p1 p2 c) = 1 →
        wallDist p1 p2 c b < b.radius →
        b.radius ≤ wallDist p1 p2 c (resolveWallEdge sinF cosF atan2F c p1 p2 b)) ∧
    (∀ ball other : Ball,
        0 < pairDist ball other →
        pairDist ball other * pairDist ball other =
          dot (sub ⟨other.x, other.y⟩ ⟨ball.x, ball.y⟩)
              (sub ⟨other.x, other.y⟩ ⟨ball.x, ball.y⟩) →
        pairDist ball other < ball.radius + other.radius →
        ball.radius + other.radius ≤
          pairDist (resolvePair ball other).1 (resolvePair ball other).2) := by
  constructor
  · intro sinF cosF atan2F c p1 p2 b hn h1
    have hn' : (wallNormal p1 p2 c).x * (wallNormal p1 p2 c).x +
        (wallNormal p1 p2 c).y * (wallNormal p1 p2 c).y = 1 := hn
    have hres : wallDist p1 p2 c (resolveWallEdge sinF cosF atan2F c p1 p2 b)
        = b.radius := by
      unfold resolveWallEdge
      rw [if_pos h1]
      simp only []
      split
      · simp only [wallDist, wallCorrectedPos, dot, sub]
        linear_combination (b.radius -
          ((b.x - p1.x) * (wallNormal p1 p2 c).x + (b.y - p1.y) * (wallNormal p1 p2 c).y)) * hn'
      · simp only [wallDist, wallCorrectedPos, dot, sub]
        linear_combination (b.radius -
          ((b.x - p1.x) * (wallNormal p1 p2 c).x + (b.y - p1.y) * (wallNormal p1 p2 c).y)) * hn'
    rw [hres]
  · intro ball other hd0 hexact hcontact
    have hne : length (sub ⟨other.x, other.y⟩ ⟨ball.x, ball.y⟩) ≠ 0 := ne_of_gt hd0
    have hm0 : (0 : ℚ) ≤ ball.radius + other.radius := le_of_lt (lt_trans hd0 hcontact)
    have hn_eval : pairNormal ball other =
        ⟨(other.x - ball.x) / length (sub ⟨other.x, other.y⟩ ⟨ball.x, ball.y⟩),
         (other.y - ball.y) / length (sub ⟨other.x, other.y⟩ ⟨ball.x, ball.y⟩)⟩ := by
      unfold pairNormal normalize
      rw [if_neg hne]
      simp [sub]
    have hcorr : pairCorrection ball other =
        ⟨(other.x - ball.x) / length (sub ⟨other.x, other.y⟩ ⟨ball.x, ball.y⟩) *
          ((ball.radius + other.radius - pairDist ball other) * (5 / 10)),
         (other.y - ball.y) / length (sub ⟨other.x, other.y⟩ ⟨ball.x, ball.y⟩) *
          ((ball.radius + other.radius - pairDist ball other) * (5 / 10))⟩ := by
      unfold pairCorrection mult
      rw [hn_eval]
    have hexact' : length (sub ⟨other.x, other.y⟩ ⟨ball.x, ball.y⟩) *
        length (sub ⟨other.x, other.y⟩ ⟨ball.x, ball.y⟩) =
        (other.x - ball.x) * (other.x - ball.x) + (other.y - ball.y) * (other.y - ball.y) := by
      have := hexact
      unfold pairDist at this
      simpa [dot, sub] using this
    have hsq : ∀ corrx corry : ℚ,
        corrx = (other.x - ball.x) / length (sub ⟨other.x, other.y⟩ ⟨ball.x, ball.y⟩) *
          ((ball.radius + other.radius - pairDist ball other) * (5 / 10)) →
        corry = (other.y - ball.y) / length (sub ⟨other.x, other.y⟩ ⟨ball.x, ball.y⟩) *
          ((ball.radius + other.radius - pairDist ball other) * (5 / 10)) →
        (other.x + corrx - (ball.x - corrx)) * (other.x + corrx - (ball.x - corrx)) +
        (other.y + corry - (ball.y - corry)) * (other.y + corry - (ball.y - corry)) =
        (ball.radius + other.radius) * (ball.radius + other.radius) := by
      intro corrx corry hcx hcy
      subst hcx
      subst hcy
      have hdp : pairDist ball other = length (sub ⟨other.x, other.y⟩ ⟨ball.x, ball.y⟩) := rfl
      rw [hdp]
      have h2cx : other.x +
          (other.x - ball.x) / length (sub ⟨other.x, other.y⟩ ⟨ball.x, ball.y⟩) *
            ((ball.radius + other.radius - length (sub ⟨other.x, other.y⟩ ⟨ball.x, ball.y⟩)) * (5 / 10)) -
          (ball.x -
          (other.x - ball.x) / length (sub ⟨other.x, other.y⟩ ⟨ball.x, ball.y⟩) *
            ((ball.radius + other.radius - length (sub ⟨other.x, other.y⟩ ⟨ball.x, ball.y⟩)) * (5 / 10)))
          = (other.x - ball.x) *
            ((ball.radius + other.radius) / length (sub ⟨other.x, other.y⟩ ⟨ball.x, ball.y⟩)) := by
        field_simp
        ring
      have h2cy : other.y +
          (other.y - ball.y) / length (sub ⟨other.x, other.y⟩ ⟨ball.x, ball.y⟩) *
            ((ball.radius + other.radius - length (sub ⟨other.x, other.y⟩ ⟨ball.x, ball.y⟩)) * (5 / 10)) -
          (ball.y -
          (other.y - ball.y) / length (sub ⟨other.x, other.y⟩ ⟨ball.x, ball.y⟩) *
            ((ball.radius + other.radius - length (sub ⟨other.x, other.y⟩ ⟨ball.x, ball.y⟩)) * (5 / 10)))
          = (other.y - ball.y) *
            ((ball.radius + other.radius) / length (sub ⟨other.x, other.y⟩ ⟨ball.x, ball.y⟩)) := by
        field_simp
        ring
      rw [h2cx, h2cy]
      have hfactor : ∀ a b q : ℚ, a * q * (a * q) + b * q * (b * q) = (a * a + b * b) * (q * q) := by
        intro a b q
        ring
      rw [hfactor, ← hexact']
      field_simp
    unfold resolvePair
    rw [if_pos hcontact, hcorr]
    simp only []
    split
    · exact le_of_eq (length_eval _ _ (ball.radius + other.radius) (hsq _ _ rfl rfl) hm0).symm
    · exact le_of_eq (length_eval _ _ (ball.radius + other.radius) (hsq _ _ rfl rfl) hm0).symm

theorem c5_witness :
    (c5wallBall.radius ≤ wallDist ⟨1, -1⟩ ⟨1, 1⟩ ⟨0, 0⟩
        (resolveWallEdge (fun _ => 0) (fun _ => 0) (fun _ _ => 0)
          ⟨0, 0⟩ ⟨1, -1⟩ ⟨1, 1⟩ c5wallBall)) ∧
    (c5pairA.radius + c5pairB.radius ≤
        pairDist (resolvePair c5pairA c5pairB).1 (resolvePair c5pairA c5pairB).2) := by
  refine ⟨c5_nonpenetration_after_correction.1 _ _ _ _ _ _ _
      (by rw [wallNormal_example]; norm_num [dot]) ?_,
    c5_nonpenetration_after_correction.2 _ _ ?_ ?_ ?_⟩
  · unfold wallDist
    rw [wallNormal_example]
    norm_num [dot, sub, c5wallBall]
  · rw [pairDist_example c5pairA c5pairB rfl rfl rfl rfl]
    norm_num
  · rw [pairDist_example c5pairA c5pairB rfl rfl rfl rfl]
    norm_num [dot, sub, c5pairA, c5pairB]
  · rw [pairDist_example c5pairA c5pairB rfl rfl rfl rfl]
    norm_num [c5pairA, c5pairB]

/-- After `N` frames the rotation angle has advanced by
`N * ROTATION_SPEED` in total. -/
theorem rotationAngle_iterate (piQ : ℚ) (sinF cosF : ℚ → ℚ) (atan2F : ℚ → ℚ → ℚ)
    (c : Vec) (hepR : ℚ) (N : ℕ) (s : SimState) :
    ((updatePhysics piQ sinF cosF atan2F c hepR)^[N] s).rotationAngle
      = s.rotationAngle + (N : ℚ) * ROTATION_SPEED := by
  induction N generalizing s with
  | zero => simp
  | succ n ih =>
    rw [Function.iterate_succ_apply, ih]
    rw [show (updatePhysics piQ sinF cosF atan2F c hepR s).rotationAngle
        = s.rotationAngle + ROTATION_SPEED from rfl]
    push_cast
    ring

/-- C6: `rotationAngle` starts at `0` and is advanced by exactly
`ROTATION_SPEED` once per `updatePhysics` call (not once per sub-step), so
after `N` frames it equals `N * ROTATION_SPEED`; the embedded
`updatePhysics` computes the vertex list once per frame from that single
updated angle. -/
theorem c6_rotation_advances_once_per_frame (piQ : ℚ) (sinF cosF : ℚ → ℚ)
    (atan2F : ℚ → ℚ → ℚ) (c : Vec) (hepR : ℚ) (s : SimState) (N : ℕ)
    (h0 : s.rotationAngle = 0) :
    ((updatePhysics piQ sinF cosF atan2F c hepR)^[N] s).rotationAngle
        = (N : ℚ) * ROTATION_SPEED ∧
    (updatePhysics piQ sinF cosF atan2F c hepR s).rotationAngle
        = s.rotationAngle + ROTATION_SPEED := by
  refine ⟨?_, rfl⟩
  rw [rotationAngle_iterate, h0, zero_add]

theorem c6_witness :
    ((updatePhysics 0 (fun _ => 0) (fun _ => 0) (fun _ _ => 0) ⟨0, 0⟩ 0)^[3]
        ⟨0, []⟩).rotationAngle = ((3 : ℕ) : ℚ) * ROTATION_SPEED ∧
    (updatePhysics 0 (fun _ => 0) (fun _ => 0) (fun _ _ => 0) ⟨0, 0⟩ 0 ⟨0, []⟩).rotationAngle
        = (⟨0, []⟩ : SimState).rotationAngle + ROTATION_SPEED :=
  c6_rotation_advances_once_per_frame 0 (fun _ => 0) (fun _ => 0) (fun _ _ => 0)
    ⟨0, 0⟩ 0 ⟨0, []⟩ 3 rfl

/-! ## Color/mass noninterference machinery (C9) -/

theorem eraseCM_integrate (b : Ball) : integrate (eraseCM b) = eraseCM (integrate b) := rfl

theorem eraseCM_resolveWallEdge (sinF cosF : ℚ → ℚ) (atan2F : ℚ → ℚ → ℚ)
    (c p1 p2 : Vec) (b : Ball) :
    resolveWallEdge sinF cosF atan2F c p1 p2 (eraseCM b)
      = eraseCM (resolveWallEdge sinF cosF atan2F c p1 p2 b) := by
  unfold resolveWallEdge
  simp only [show wallDist p1 p2 c (eraseCM b) = wallDist p1 p2 c b from rfl,
    show (eraseCM b).radius = b.radius from rfl,
    show wallCorrectedPos p1 p2 c (eraseCM b) = wallCorrectedPos p1 p2 c b from rfl,
    show (eraseCM b).vx = b.vx from rfl,
    show (eraseCM b).vy = b.vy from rfl]
  split
  · split <;> rfl
  · rfl

theorem eraseCM_resolvePair (a b : Ball) :
    resolvePair (eraseCM a) (eraseCM b)
      = (eraseCM (resolvePair a b).1, eraseCM (resolvePair a b).2) := by
  unfold resolvePair
  simp only [show pairDist (eraseCM a) (eraseCM b) = pairDist a b from rfl,
    show (eraseCM a).radius = a.radius from rfl,
    show (eraseCM b).radius = b.radius from rfl,
    show pairCorrection (eraseCM a) (eraseCM b) = pairCorrection a b from rfl,
    show pairVn (eraseCM a) (eraseCM b) = pairVn a b from rfl,
    show pairNormal (eraseCM a) (eraseCM b) = pairNormal a b from rfl,
    show (eraseCM a).x = a.x from rfl, show (eraseCM a).y = a.y from rfl,
    show (eraseCM b).x = b.x from rfl, show (eraseCM b).y = b.y from rfl,
    show (eraseCM a).vx = a.vx from rfl, show (eraseCM a).vy = a.vy from rfl,
    show (eraseCM b).vx = b.vx from rfl, show (eraseCM b).vy = b.vy from rfl]
  split
  · split <;> rfl
  · rfl

theorem foldl_comm {α β : Type} (F : α → α) (g : α → β → α)
    (h : ∀ a x, g (F a) x = F (g a x)) (l : List β) (a : α) :
    l.foldl g (F a) = F (l.foldl g a) := by
  induction l generalizing a with
  | nil => rfl
  | cons x xs ih => simp only [List.foldl_cons, h, ih]

theorem eraseCM_getD (l : List Ball) (i : ℕ) :
    (l.map eraseCM).getD i defaultBall = eraseCM (l.getD i defaultBall) := by
  induction l generalizing i with
  | nil => cases i <;> rfl
  | cons x xs ih =>
    cases i with
    | zero => rfl
    | succ n => simpa using ih n

theorem eraseCM_resolveWalls (sinF cosF : ℚ → ℚ) (atan2F : ℚ → ℚ → ℚ)
    (c : Vec) (verts : List Vec) (b : Ball) :
    resolveWalls sinF cosF atan2F c verts (eraseCM b)
      = eraseCM (resolveWalls sinF cosF atan2F c verts b) := by
  unfold resolveWalls
  exact foldl_comm eraseCM _ (fun a e => eraseCM_resolveWallEdge sinF cosF atan2F c e.1 e.2 a) _ b

theorem eraseCM_pairLoopStep (bs : List Ball) (i j : ℕ) :
    pairLoopStep (bs.map eraseCM) i j = (pairLoopStep bs i j).map eraseCM := by
  unfold pairLoopStep
  simp only [eraseCM_getD, show ∀ x : Ball, (eraseCM x).id = x.id from fun _ => rfl]
  by_cases h : (bs.getD i defaultBall).id = (bs.getD j defaultBall).id
  · rw [if_pos h, if_pos h]
  · rw [if_neg h, if_neg h, eraseCM_resolvePair]
    simp only [List.map_set]

theorem eraseCM_processBall (sinF cosF : ℚ → ℚ) (atan2F : ℚ → ℚ → ℚ)
    (c : Vec) (verts : List Vec) (bs : List Ball) (i : ℕ) :
    processBall sinF cosF atan2F c verts (bs.map eraseCM) i
      = (processBall sinF cosF atan2F c verts bs i).map eraseCM := by
  unfold processBall
  simp only []
  rw [eraseCM_getD, eraseCM_integrate, eraseCM_resolveWalls, List.length_map]
  rw [show (bs.map eraseCM).set i
        (eraseCM (resolveWalls sinF cosF atan2F c verts (integrate (bs.getD i defaultBall))))
      = (bs.set i (resolveWalls sinF cosF atan2F c verts
          (integrate (bs.getD i defaultBall)))).map eraseCM from (List.map_set).symm]
  exact foldl_comm (List.map eraseCM) _ (fun a x => eraseCM_pairLoopStep a i x) _ _

theorem eraseCM_subStep (sinF cosF : ℚ → ℚ) (atan2F : ℚ → ℚ → ℚ)
    (c : Vec) (verts : List Vec) (bs : List Ball) :
    subStep sinF cosF atan2F c verts (bs.map eraseCM)
      = (subStep sinF cosF atan2F c verts bs).map eraseCM := by
  unfold subStep
  rw [List.length_map]
  exact foldl_comm (List.map eraseCM) _
    (fun a x => eraseCM_processBall sinF cosF atan2F c verts a x) _ _

theorem eraseCM_updatePhysics_balls (piQ : ℚ) (sinF cosF : ℚ → ℚ) (atan2F : ℚ → ℚ → ℚ)
    (c : Vec) (hepR : ℚ) (s : SimState) :
    (updatePhysics piQ sinF cosF atan2F c hepR ⟨s.rotationAngle, s.balls.map eraseCM⟩).balls
      = (updatePhysics piQ sinF cosF atan2F c hepR s).balls.map eraseCM := by
  unfold updatePhysics
  simp only []
  exact foldl_comm (List.map eraseCM) _
    (fun a x => eraseCM_subStep sinF cosF atan2F c _ a) _ _

theorem eraseCM_x (b : Ball) : (eraseCM b).x = b.x := rfl

theorem eraseCM_y (b : Ball) : (eraseCM b).y = b.y := rfl

theorem eraseCM_vx (b : Ball) : (eraseCM b).vx = b.vx := rfl

theorem eraseCM_vy (b : Ball) : (eraseCM b).vy = b.vy := rfl

theorem eraseCM_eq_of_agr (b c : Ball) (h : agr b c) : eraseCM b = eraseCM c := by
  obtain ⟨h1, h2, h3, h4, h5, h6⟩ := h
  unfold eraseCM
  ext <;> simp [h1, h2, h3, h4, h5, h6]

/-- C9: the positions and velocities produced by one `updatePhysics` step
do not depend on any ball's `color` or `mass`: two states agreeing on
rotation angle and on every ball's `id`, position, velocity and radius
(but possibly differing in colors and masses) step to identical positions
and velocities for every ball. -/
theorem c9_color_mass_noninterference (piQ : ℚ) (sinF cosF : ℚ → ℚ)
    (atan2F : ℚ → ℚ → ℚ) (c : Vec) (hepR : ℚ) (s t : SimState)
    (hrot : s.rotationAngle = t.rotationAngle)
    (hlen : s.balls.length = t.balls.length)
    (hagr : ∀ i : ℕ, i < s.balls.length →
      agr (s.balls.getD i defaultBall) (t.balls.getD i defaultBall)) :
    (updatePhysics piQ sinF cosF atan2F c hepR s).balls.length
        = (updatePhysics piQ sinF cosF atan2F c hepR t).balls.length ∧
    ∀ i : ℕ, i < (updatePhysics piQ sinF cosF atan2F c hepR s).balls.length →
      ((updatePhysics piQ sinF cosF atan2F c hepR s).balls.getD i defaultBall).x
          = ((updatePhysics piQ sinF cosF atan2F c hepR t).balls.getD i defaultBall).x ∧
      ((updatePhysics piQ sinF cosF atan2F c hepR s).balls.getD i defaultBall).y
          = ((updatePhysics piQ sinF cosF atan2F c hepR t).balls.getD i defaultBall).y ∧
      ((updatePhysics piQ sinF cosF atan2F c hepR s).balls.getD i defaultBall).vx
          = ((updatePhysics piQ sinF cosF atan2F c hepR t).balls.getD i defaultBall).vx ∧
      ((updatePhysics piQ sinF cosF atan2F c hepR s).balls.getD i defaultBall).vy
          = ((updatePhysics piQ sinF cosF atan2F c hepR t).balls.getD i defaultBall).vy := by
  have hmap : s.balls.map eraseCM = t.balls.map eraseCM := by
    apply List.ext_getElem (by simp [hlen])
    intro n h1 h2
    simp only [List.getElem_map]
    have hn : n < s.balls.length := by simpa using h1
    have hn' : n < t.balls.length := by simpa using h2
    have := eraseCM_eq_of_agr _ _ (hagr n hn)
    rwa [List.getD_eq_getElem?_getD, List.getD_eq_getElem?_getD,
      List.getElem?_eq_getElem hn, List.getElem?_eq_getElem hn'] at this
  have hcomm : (updatePhysics piQ sinF cosF atan2F c hepR s).balls.map eraseCM
      = (updatePhysics piQ sinF cosF atan2F c hepR t).balls.map eraseCM :=
    calc (updatePhysics piQ sinF cosF atan2F c hepR s).balls.map eraseCM
        = (updatePhysics piQ sinF cosF atan2F c hepR
            ⟨s.rotationAngle, s.balls.map eraseCM⟩).balls :=
          (eraseCM_updatePhysics_balls piQ sinF cosF atan2F c hepR s).symm
      _ = (updatePhysics piQ sinF cosF atan2F c hepR
            ⟨t.rotationAngle, t.balls.map eraseCM⟩).balls := by rw [hmap, hrot]
      _ = (updatePhysics piQ sinF cosF atan2F c hepR t).balls.map eraseCM :=
          eraseCM_updatePhysics_balls piQ sinF cosF atan2F c hepR t
  have hlen2 : (updatePhysics piQ sinF cosF atan2F c hepR s).balls.length
      = (updatePhysics piQ sinF cosF atan2F c hepR t).balls.length := by
    have := congrArg List.length hcomm
    simpa using this
  refine ⟨hlen2, ?_⟩
  intro i hi
  have hgd : eraseCM ((updatePhysics piQ sinF cosF atan2F c hepR s).balls.getD i defaultBall)
      = eraseCM ((updatePhysics piQ sinF cosF atan2F c hepR t).balls.getD i defaultBall) := by
    rw [← eraseCM_getD, ← eraseCM_getD, hcomm]
  exact ⟨by simpa only [eraseCM_x] using congrArg Ball.x hgd,
    by simpa only [eraseCM_y] using congrArg Ball.y hgd,
    by simpa only [eraseCM_vx] using congrArg Ball.vx hgd,
    by simpa only [eraseCM_vy] using congrArg Ball.vy hgd⟩

theorem c9_witness :
    (updatePhysics 0 (fun _ => 0) (fun _ => 0) (fun _ _ => 0) ⟨0, 0⟩ 0
        ⟨0, [c9ballS]⟩).balls.length
      = (updatePhysics 0 (fun _ => 0) (fun _ => 0) (fun _ _ => 0) ⟨0, 0⟩ 0
        ⟨0, [c9ballT]⟩).balls.length ∧
    ∀ i : ℕ, i < (updatePhysics 0 (fun _ => 0) (fun _ => 0) (fun _ _ => 0) ⟨0, 0⟩ 0
        ⟨0, [c9ballS]⟩).balls.length →
      ((updatePhysics 0 (fun _ => 0) (fun _ => 0) (fun _ _ => 0) ⟨0, 0⟩ 0
          ⟨0, [c9ballS]⟩).balls.getD i defaultBall).x
        = ((updatePhysics 0 (fun _ => 0) (fun _ => 0) (fun _ _ => 0) ⟨0, 0⟩ 0
          ⟨0, [c9ballT]⟩).balls.getD i defaultBall).x ∧
      ((updatePhysics 0 (fun _ => 0) (fun _ => 0) (fun _ _ => 0) ⟨0, 0⟩ 0
          ⟨0, [c9ballS]⟩).balls.getD i defaultBall).y
        = ((updatePhysics 0 (fun _ => 0) (fun _ => 0) (fun _ _ => 0) ⟨0, 0⟩ 0
          ⟨0, [c9ballT]⟩).balls.getD i defaultBall).y ∧
      ((updatePhysics 0 (fun _ => 0) (fun _ => 0) (fun _ _ => 0) ⟨0, 0⟩ 0
          ⟨0, [c9ballS]⟩).balls.getD i defaultBall).vx
        = ((updatePhysics 0 (fun _ => 0) (fun _ => 0) (fun _ _ => 0) ⟨0, 0⟩ 0
          ⟨0, [c9ballT]⟩).balls.getD i defaultBall).vx ∧
      ((updatePhysics 0 (fun _ => 0) (fun _ => 0) (fun _ _ => 0) ⟨0, 0⟩ 0
          ⟨0, [c9ballS]⟩).balls.getD i defaultBall).vy
        = ((updatePhysics 0 (fun _ => 0) (fun _ => 0) (fun _ _ => 0) ⟨0, 0⟩ 0
          ⟨0, [c9ballT]⟩).balls.getD i defaultBall).vy :=
  c9_color_mass_noninterference 0 (fun _ => 0) (fun _ => 0) (fun _ _ => 0) ⟨0, 0⟩ 0
    ⟨0, [c9ballS]⟩ ⟨0, [c9ballT]⟩ rfl rfl
    (by
      intro i hi
      have h1 : i = 0 := Nat.lt_one_iff.mp (by simpa using hi)
      subst h1
      exact ⟨rfl, rfl, rfl, rfl, rfl, rfl⟩)

end Heptagon
